import Mathlib

/-!
Verification of the market_insight ingestion and reconciliation pipeline.

The development shallowly embeds the two core scripts:

* `scripts/import_to_postgres.py` — symbol resolution
  (`get_or_create_symbol`), row sanitization (`parse_date`,
  `is_valid_row`), staging-and-merge loading (`import_csv_file`), and the
  per-file driver loop (`main`).
* `scripts/validate_data.py` — the read-only validation pass
  (`validate_csv_files`) and the reconciliation computed in
  `print_report` (`missing = expected - downloaded - failed`).

External library calls are embedded as follows: the outcome of Python's
`float(text)` on a cell is carried alongside the cell's text as a value of
`NumVal` (a finite rational, `nan`, `±inf`, or a parse error); the outcome
of `datetime.strptime(text, "%Y-%m-%d")` in the validation pass is carried
on each row as an `Option Nat` (an order-preserving encoding of the
calendar date, `none` when parsing raises). Exceptions that the Python
code does not catch are modelled by `Option`-valued functions returning
`none`; the PostgreSQL store is a list of rows with the
`(symbol_id, trade_date)` uniqueness constraint enforced by the
conflict-skip merge.  The typed temp table's column parses applied by
COPY (`DATE`, `NUMERIC(18, 6)`, `BIGINT`) are modelled by conservative
concrete parsers (`pgDateParses`, `pgNumericParses`, `pgBigIntParses`):
each accepts a strict subset of what the store accepts — covering the
formats the upstream artifacts produce — so a modelled COPY success is a
real one, while a rejected text makes COPY raise an uncaught `DataError`,
modelled as `none`.
-/

namespace MarketInsight

/-- Outcome of Python `float(text)` on one raw text field: a finite value,
`nan`, an infinity, or a `ValueError` (`err`). -/
inductive NumVal
  | num (q : ℚ)
  | nan
  | inf
  | ninf
  | err
  deriving DecidableEq

/-- One CSV cell: its raw text together with the outcome of `float` on it. -/
structure Cell where
  text : List Char
  val : NumVal
  deriving DecidableEq

/-- Embedding of Python `date_str.split(" ")`: split a character list at
every single space, keeping empty pieces. -/
def splitSp : List Char → List (List Char)
  | [] => [[]]
  | c :: cs =>
    if c = ' ' then [] :: splitSp cs
    else
      match splitSp cs with
      | [] => [[c]]
      | w :: ws => (c :: w) :: ws

/-- Embeds `parse_date` from `import_to_postgres.py`:
`date_str.split(" ")[0]`. -/
def parse_date (s : List Char) : List Char := (splitSp s).headD []

/-- The bound `MAX_PRICE = 1_000_000_000` from `import_to_postgres.py`. -/
def MAX_PRICE : ℚ := 1000000000

/-- Python `int(x)` on a finite float value: truncation toward zero. -/
def pyTrunc (q : ℚ) : ℤ := q.num.tdiv (q.den : ℤ)

/-- Python `0 <= p < MAX_PRICE` on one parsed price: comparisons with
`nan` are false, `inf` fails the upper bound, `-inf` fails the lower. -/
def priceOK : NumVal → Bool
  | NumVal.num q => decide (0 ≤ q) && decide (q < MAX_PRICE)
  | _ => false

/-- Does `float` raise `ValueError` on this field? -/
def isErr : NumVal → Bool
  | NumVal.err => true
  | _ => false

/-- Embeds `is_valid_row` from `import_to_postgres.py`.  The Python body first
builds `prices = [float(open_p), float(high), float(low), float(close)]`
(a `ValueError` is caught and yields `False`), then computes
`vol = int(float(volume))` (`ValueError` from `float` or from `int(nan)`
is caught and yields `False`, but `int(±inf)` raises `OverflowError`,
which the `except (ValueError, TypeError)` clause does not catch — that
exception escapes, modelled as `none`), and finally returns
`all(0 <= p < MAX_PRICE for p in prices) and vol >= 0`. -/
def is_valid_row (open_p high low close volume : NumVal) : Option Bool :=
  if isErr open_p || isErr high || isErr low || isErr close then some false
  else
    match volume with
    | NumVal.err => some false
    | NumVal.nan => some false
    | NumVal.inf => none
    | NumVal.ninf => none
    | NumVal.num qv =>
      some (priceOK open_p && priceOK high && priceOK low && priceOK close
            && decide (0 ≤ pyTrunc qv))

theorem splitSp_ne_nil (s : List Char) : splitSp s ≠ [] := by
  cases s with
  | nil => simp [splitSp]
  | cons c cs =>
    simp only [splitSp]
    by_cases h : c = ' '
    · simp [h]
    · simp only [h, if_false]
      cases splitSp cs <;> simp

theorem parse_date_takeWhile (s : List Char) :
    parse_date s = s.takeWhile (fun c => c != ' ') := by
  induction s with
  | nil => rfl
  | cons c cs ih =>
    by_cases h : c = ' '
    · simp [parse_date, splitSp, h, List.takeWhile]
    · have hne := splitSp_ne_nil cs
      simp only [parse_date, splitSp, h, if_false] at ih ⊢
      cases hsp : splitSp cs with
      | nil => exact absurd hsp hne
      | cons w ws =>
        rw [hsp] at ih
        have hb : (c != ' ') = true := by simp [h]
        simp [List.takeWhile, hb, ← ih]

/-- C9: the sanitizer's date normalization maps
`"1980-12-12 00:00:00-05:00"` to `"1980-12-12"`, and in general
`parse_date` returns the portion of the field before the first space. -/
theorem c9_date_normalization :
    parse_date "1980-12-12 00:00:00-05:00".toList = "1980-12-12".toList ∧
    ∀ s : List Char, parse_date s = s.takeWhile (fun c => c != ' ') :=
  ⟨by decide, parse_date_takeWhile⟩

theorem priceOK_iff (p : NumVal) :
    priceOK p = true ↔ ∃ q, p = NumVal.num q ∧ 0 ≤ q ∧ q < MAX_PRICE := by
  cases p <;> simp [priceOK]

/-- C3: `is_valid_row` accepts (returns `some true`) iff all four prices
are finite numbers in `[0, MAX_PRICE)` and the volume is a finite number
whose truncation toward zero is nonnegative; concretely, a close of
`2_000_000_000` is rejected, a close of `999_999_999.999999` is accepted,
a volume of `-1` is rejected, and a `NaN` price is rejected. -/
theorem c3_bounds_rejection :
    (∀ o h l c v : NumVal,
      is_valid_row o h l c v = some true ↔
        ((∃ q, o = NumVal.num q ∧ 0 ≤ q ∧ q < MAX_PRICE) ∧
         (∃ q, h = NumVal.num q ∧ 0 ≤ q ∧ q < MAX_PRICE) ∧
         (∃ q, l = NumVal.num q ∧ 0 ≤ q ∧ q < MAX_PRICE) ∧
         (∃ q, c = NumVal.num q ∧ 0 ≤ q ∧ q < MAX_PRICE) ∧
         (∃ q, v = NumVal.num q ∧ 0 ≤ pyTrunc q))) ∧
    is_valid_row (NumVal.num 1) (NumVal.num 2) (NumVal.num 1)
      (NumVal.num 2000000000) (NumVal.num 100) = some false ∧
    is_valid_row (NumVal.num 1) (NumVal.num 2) (NumVal.num 1)
      (NumVal.num (mkRat 999999999999999 1000000)) (NumVal.num 100) = some true ∧
    is_valid_row (NumVal.num 1) (NumVal.num 2) (NumVal.num 1)
      (NumVal.num 2) (NumVal.num (-1)) = some false ∧
    is_valid_row NumVal.nan (NumVal.num 2) (NumVal.num 1)
      (NumVal.num 2) (NumVal.num 100) = some false := by
  refine ⟨?_, by decide, by decide, by decide, by decide⟩
  intro o h l c v
  constructor
  · intro hv
    cases hE : (isErr o || isErr h || isErr l || isErr c) with
    | true => simp [is_valid_row, hE] at hv
    | false =>
      cases v with
      | num qv =>
        simp only [is_valid_row, hE, Bool.false_eq_true, if_false, Option.some.injEq,
                   Bool.and_eq_true, decide_eq_true_eq] at hv
        obtain ⟨⟨⟨⟨ho, hh⟩, hl⟩, hc⟩, hvol⟩ := hv
        exact ⟨(priceOK_iff o).mp ho, (priceOK_iff h).mp hh,
               (priceOK_iff l).mp hl, (priceOK_iff c).mp hc,
               qv, rfl, hvol⟩
      | nan => simp [is_valid_row, hE] at hv
      | inf => simp [is_valid_row, hE] at hv
      | ninf => simp [is_valid_row, hE] at hv
      | err => simp [is_valid_row, hE] at hv
  · rintro ⟨ho, hh, hl, hc, qv, rfl, hvol⟩
    have ho' := (priceOK_iff o).mpr ho
    have hh' := (priceOK_iff h).mpr hh
    have hl' := (priceOK_iff l).mpr hl
    have hc' := (priceOK_iff c).mpr hc
    have he : (isErr o || isErr h || isErr l || isErr c) = false := by
      obtain ⟨qo, rfl, -⟩ := ho
      obtain ⟨qh, rfl, -⟩ := hh
      obtain ⟨ql, rfl, -⟩ := hl
      obtain ⟨qc, rfl, -⟩ := hc
      rfl
    simp [is_valid_row, he, ho', hh', hl', hc', hvol]

/-- One raw CSV line, as the `csv.reader` yields it: a list of cells. -/
abbrev RawRow := List Cell

/-- Indexing a Python list after the `len(row) < 7` guard never reaches
this default. -/
def defaultCell : Cell := ⟨[], NumVal.err⟩

/-- One row of the permanent `historical_prices` store, as written into
the COPY buffer: the resolved symbol identity, the normalized trade date,
and the raw texts of the five numeric columns. -/
structure PRow where
  symbol_id : Nat
  trade_date : List Char
  open_text : List Char
  high_text : List Char
  low_text : List Char
  close_text : List Char
  volume_text : List Char
  deriving DecidableEq

/-- The `(symbol_id, trade_date)` uniqueness key of `historical_prices`. -/
def sameKey (a b : PRow) : Bool :=
  decide (a.symbol_id = b.symbol_id ∧ a.trade_date = b.trade_date)

/-- Does the store already hold a row with this row's key? -/
def hasKey (store : List PRow) (r : PRow) : Bool :=
  store.any (fun x => sameKey x r)

/-- Embeds `INSERT ... ON CONFLICT (symbol_id, trade_date) DO NOTHING` for one
candidate row: skip it when its key is present, else append it. -/
def mergeRow (store : List PRow) (r : PRow) : List PRow :=
  if hasKey store r then store else store ++ [r]

/-- The conflict-skip merge of the whole staged batch, in order.  Rows of
the batch that conflict with the store, or with an earlier row of the same
batch, are silently skipped. -/
def mergeRows (store : List PRow) (rs : List PRow) : List PRow :=
  rs.foldl mergeRow store

/-- The buffer line `import_csv_file` writes for one accepted row:
`symbol_id`, `parse_date(row[0])`, and the raw texts of columns 2-6. -/
def stageRow (sid : Nat) (r : RawRow) : PRow :=
  { symbol_id := sid
  , trade_date := parse_date (r.getD 0 defaultCell).text
  , open_text := (r.getD 2 defaultCell).text
  , high_text := (r.getD 3 defaultCell).text
  , low_text := (r.getD 4 defaultCell).text
  , close_text := (r.getD 5 defaultCell).text
  , volume_text := (r.getD 6 defaultCell).text }

/-- Applies `is_valid_row(row[2], row[3], row[4], row[5], row[6])` to one raw
row. -/
def rowValid (r : RawRow) : Option Bool :=
  is_valid_row (r.getD 2 defaultCell).val (r.getD 3 defaultCell).val
    (r.getD 4 defaultCell).val (r.getD 5 defaultCell).val
    (r.getD 6 defaultCell).val

/-- The staging loop of `import_csv_file`: skip rows with fewer than 7
fields, count and skip rows rejected by `is_valid_row`, and write the
accepted rows into the buffer while counting them in `rows_imported`.
Returns `(buffer, rows_imported, rows_skipped)`, or `none` when
`is_valid_row` raises an uncaught exception. -/
def stageRows (sid : Nat) : List RawRow → Option (List PRow × Nat × Nat)
  | [] => some ([], 0, 0)
  | r :: rs =>
    if r.length < 7 then stageRows sid rs
    else
      match rowValid r with
      | none => none
      | some false =>
        match stageRows sid rs with
        | none => none
        | some (ps, ni, ns) => some (ps, ni, ns + 1)
      | some true =>
        match stageRows sid rs with
        | none => none
        | some (ps, ni, ns) => some (stageRow sid r :: ps, ni + 1, ns)

/-- Value of a digit string. -/
def digitsToNat (l : List Char) : Nat :=
  l.foldl (fun a c => a * 10 + (c.toNat - 48)) 0

/-- Strip one leading sign character, as the storage layer's numeric
parsers do. -/
def stripSign : List Char → List Char
  | '+' :: cs => cs
  | '-' :: cs => cs
  | cs => cs

/-- Split at the first dot: integer digits and, when a dot is present,
everything after it. -/
def splitDot : List Char → List Char × Option (List Char)
  | [] => ([], none)
  | c :: cs =>
    if c = '.' then ([], some cs)
    else
      let p := splitDot cs
      (c :: p.fst, p.snd)

/-- Days in a month of the proleptic Gregorian calendar, as the storage
layer's `DATE` validation enforces. -/
def daysInMonth (y m : Nat) : Nat :=
  if m = 2 then
    if y % 4 = 0 ∧ (y % 100 ≠ 0 ∨ y % 400 = 0) then 29 else 28
  else if m = 4 ∨ m = 6 ∨ m = 9 ∨ m = 11 then 30
  else 31

/-- Modelled from the spec: the store's `DATE` column parse that COPY
applies to the staged `trade_date` text (column types declared in
`import_csv_file`'s `temp_prices` DDL; §6 gives the artifact's date cell
as `YYYY-MM-DD[ ...]`).  Conservative subset of the store's parser: only
the canonical `YYYY-MM-DD` spelling — the one the upstream artifact
format produces — is accepted, with real calendar validation, so a
success here is a success in the store, text-distinct accepted dates are
date-distinct, and texts like `not-a-date` are rejected in both. -/
def pgDateParses (s : List Char) : Bool :=
  match s with
  | [y1, y2, y3, y4, c1, m1, m2, c2, d1, d2] =>
    y1.isDigit && y2.isDigit && y3.isDigit && y4.isDigit &&
    decide (c1 = '-') && decide (c2 = '-') &&
    m1.isDigit && m2.isDigit && d1.isDigit && d2.isDigit &&
    (let y := digitsToNat [y1, y2, y3, y4]
     let m := digitsToNat [m1, m2]
     let d := digitsToNat [d1, d2]
     decide (1 ≤ y) && decide (1 ≤ m) && decide (m ≤ 12) &&
     decide (1 ≤ d) && decide (d ≤ daysInMonth y m))
  | _ => false

/-- Modelled from the spec: the store's `NUMERIC(18, 6)` column parse
that COPY applies to the four staged price texts (§6 "bounded-precision
decimal prices").  Conservative subset: plain sign-digits-dot-digits
decimals with integer part below `10^11` (a margin below the declared
precision, so scale-6 rounding cannot overflow); the store additionally
accepts spellings such as scientific notation, so a success here is a
success there. -/
def pgNumericParses (s : List Char) : Bool :=
  let body := stripSign s
  let p := splitDot body
  let ipart := p.fst
  let fpart := (p.snd).getD []
  ipart.all Char.isDigit && fpart.all Char.isDigit &&
  !(ipart.isEmpty && fpart.isEmpty) &&
  decide (digitsToNat ipart < 10 ^ 11)

/-- Modelled from the spec: the store's `BIGINT` column parse that COPY
applies to the staged volume text (§6 "non-negative integer volume").
Conservative subset: an optional sign and digits with value below
`2^63`; in particular a fractional text such as `100.5` is rejected here
and in the store. -/
def pgBigIntParses (s : List Char) : Bool :=
  let body := stripSign s
  !body.isEmpty && body.all Char.isDigit &&
  decide (digitsToNat body < 2 ^ 63)

/-- Does COPY accept every column text of one staged row under the
`temp_prices` column types?  (`symbol_id` is printed from an integer and
always parses.) -/
def pRowCopyOK (r : PRow) : Bool :=
  pgDateParses r.trade_date && pgNumericParses r.open_text &&
  pgNumericParses r.high_text && pgNumericParses r.low_text &&
  pgNumericParses r.close_text && pgBigIntParses r.volume_text

/-- Does `cursor.copy_from` accept the whole staged buffer?  When any
row's text is rejected by a column type, COPY raises a `DataError` that
`import_csv_file` does not catch. -/
def copyOK (staged : List PRow) : Bool := staged.all pRowCopyOK

/-- Embeds `import_csv_file` from `import_to_postgres.py`.  `file` is the full
CSV content; `next(reader, None)` drops the header line.  When no row
survives sanitization the function returns 0 without touching the store
(the `rows_imported == 0` early return fires before the temp table is
created); otherwise the staged batch is bulk-copied to the transient
typed table — where a staged text the column type rejects raises an
uncaught `DataError`, modelled as `none` — and merged into the store
with the conflict-skip insert, and the pre-merge count `rows_imported`
is returned. -/
def import_csv_file (store : List PRow) (file : List RawRow) (sid : Nat) :
    Option (List PRow × Nat) :=
  match stageRows sid file.tail with
  | none => none
  | some (staged, imported, _skipped) =>
    if imported = 0 then some (store, 0)
    else if copyOK staged then some (mergeRows store staged, imported)
    else none

theorem sameKey_refl (r : PRow) : sameKey r r = true := by
  simp [sameKey]

theorem hasKey_mergeRow_self (store : List PRow) (r : PRow) :
    hasKey (mergeRow store r) r = true := by
  unfold mergeRow
  by_cases h : hasKey store r = true
  · simp [h]
  · rw [if_neg h]
    simp [hasKey, List.any_append, sameKey_refl]

theorem hasKey_mergeRow_mono (store : List PRow) (x r : PRow)
    (h : hasKey store r = true) : hasKey (mergeRow store x) r = true := by
  unfold mergeRow
  by_cases hx : hasKey store x = true
  · simp [hx, h]
  · rw [if_neg (by simp_all)]
    simp only [hasKey, List.any_append] at h ⊢
    simp [h]

theorem hasKey_mergeRows_mono (rs : List PRow) (store : List PRow) (r : PRow)
    (h : hasKey store r = true) : hasKey (mergeRows store rs) r = true := by
  induction rs generalizing store with
  | nil => exact h
  | cons x xs ih =>
    simp only [mergeRows, List.foldl_cons]
    exact ih (mergeRow store x) (hasKey_mergeRow_mono store x r h)

theorem hasKey_mergeRows_of_mem (rs : List PRow) (store : List PRow) (r : PRow)
    (h : r ∈ rs) : hasKey (mergeRows store rs) r = true := by
  induction rs generalizing store with
  | nil => cases h
  | cons x xs ih =>
    simp only [mergeRows, List.foldl_cons]
    rcases List.mem_cons.mp h with rfl | hmem
    · exact hasKey_mergeRows_mono xs (mergeRow store r) r
        (hasKey_mergeRow_self store r)
    · exact ih (mergeRow store x) hmem

theorem mergeRows_noop (rs : List PRow) (store : List PRow)
    (h : ∀ r ∈ rs, hasKey store r = true) : mergeRows store rs = store := by
  induction rs with
  | nil => rfl
  | cons x xs ih =>
    have hx : mergeRow store x = store := by
      unfold mergeRow
      rw [if_pos (h x (List.mem_cons_self x xs))]
    simp only [mergeRows, List.foldl_cons, hx]
    exact ih (fun r hr => h r (List.mem_cons_of_mem x hr))

/-- C1: re-ingesting a file after a successful first ingestion is a
no-op on the permanent store — the conflict-skip merge on the
`(symbol_id, trade_date)` key inserts 0 new rows, surfaces no duplicate
error, and the row count of the store is unchanged. -/
theorem c1_idempotency (store : List PRow) (file : List RawRow) (sid : Nat)
    (s1 : List PRow) (n1 : Nat)
    (h : import_csv_file store file sid = some (s1, n1)) :
    import_csv_file s1 file sid = some (s1, n1) := by
  unfold import_csv_file at h ⊢
  cases hst : stageRows sid file.tail with
  | none => rw [hst] at h; cases h
  | some v =>
    obtain ⟨staged, imported, skipped⟩ := v
    rw [hst] at h
    dsimp only at h ⊢
    by_cases hz : imported = 0
    · rw [if_pos hz] at h ⊢
      injection h with h
      injection h with h1 h2
      rw [← h2]
    · rw [if_neg hz] at h ⊢
      by_cases hc : copyOK staged = true
      · rw [if_pos hc] at h ⊢
        injection h with h
        injection h with hs hn
        rw [← hs, hn]
        have hnoop : mergeRows (mergeRows store staged) staged = mergeRows store staged :=
          mergeRows_noop staged (mergeRows store staged)
            (fun r hr => hasKey_mergeRows_of_mem staged store r hr)
        rw [hnoop]
      · rw [if_neg hc] at h
        cases h

theorem stageRows_count (sid : Nat) (rs : List RawRow) :
    ∀ ps ni ns, stageRows sid rs = some (ps, ni, ns) → ni = ps.length := by
  induction rs with
  | nil =>
    intro ps ni ns h
    simp only [stageRows, Option.some.injEq, Prod.mk.injEq] at h
    obtain ⟨h1, h2, h3⟩ := h
    rw [← h1, ← h2]
    rfl
  | cons r rs ih =>
    intro ps ni ns h
    simp only [stageRows] at h
    split at h
    · exact ih ps ni ns h
    · split at h
      · cases h
      · split at h
        · cases h
        · rename_i ps1 ni1 ns1 heq
          simp only [Option.some.injEq, Prod.mk.injEq] at h
          obtain ⟨rfl, rfl, rfl⟩ := h
          exact ih ps1 ni1 ns1 heq
      · split at h
        · cases h
        · rename_i ps1 ni1 ns1 heq
          simp only [Option.some.injEq, Prod.mk.injEq] at h
          obtain ⟨rfl, rfl, rfl⟩ := h
          simp only [List.length_cons]
          rw [ih ps1 ni1 ns1 heq]

/-- C6 amended: whenever the staging-and-merge step returns at all, the
returned count is the number of sanitizer-accepted rows staged for the
file (the pre-merge count); and both whether it returns and what count
it returns are independent of the permanent store's contents — in
particular independent of how many staged rows the conflict-skip merge
actually inserts.  (The step does not always return: a staged text the
temp table's column types reject makes COPY raise.) -/
theorem c6_amended (file : List RawRow) (sid : Nat) :
    (∀ staged ni ns store s2 n,
      stageRows sid file.tail = some (staged, ni, ns) →
      import_csv_file store file sid = some (s2, n) →
      n = staged.length) ∧
    (∀ store1 store2,
      (import_csv_file store1 file sid).map Prod.snd =
        (import_csv_file store2 file sid).map Prod.snd) := by
  constructor
  · intro staged ni ns store s2 n hst him
    have hcount := stageRows_count sid file.tail staged ni ns hst
    unfold import_csv_file at him
    rw [hst] at him
    dsimp only at him
    by_cases hz : ni = 0
    · rw [if_pos hz] at him
      injection him with him
      injection him with h1 h2
      omega
    · rw [if_neg hz] at him
      by_cases hc : copyOK staged = true
      · rw [if_pos hc] at him
        injection him with him
        injection him with h1 h2
        omega
      · rw [if_neg hc] at him
        cases him
  · intro store1 store2
    unfold import_csv_file
    cases hst : stageRows sid file.tail with
    | none => rfl
    | some v =>
      obtain ⟨staged, ni, ns⟩ := v
      dsimp only
      by_cases hz : ni = 0
      · rw [if_pos hz, if_pos hz]
        rfl
      · rw [if_neg hz, if_neg hz]
        by_cases hc : copyOK staged = true
        · rw [if_pos hc, if_pos hc]
          rfl
        · rw [if_neg hc, if_neg hc]

/-- Header line of every artifact, as raw cells (their `float` outcome is
a `ValueError`). -/
def headerRawRow : RawRow :=
  [⟨"Date".toList, NumVal.err⟩, ⟨"Symbol".toList, NumVal.err⟩,
   ⟨"Open".toList, NumVal.err⟩, ⟨"High".toList, NumVal.err⟩,
   ⟨"Low".toList, NumVal.err⟩, ⟨"Close".toList, NumVal.err⟩,
   ⟨"Volume".toList, NumVal.err⟩]

/-- A well-formed data row for the concrete checks. -/
def wGoodRow : RawRow :=
  [⟨"2020-01-02 00:00:00-05:00".toList, NumVal.err⟩,
   ⟨"AAA".toList, NumVal.err⟩,
   ⟨"10".toList, NumVal.num 10⟩, ⟨"12".toList, NumVal.num 12⟩,
   ⟨"9".toList, NumVal.num 9⟩, ⟨"11".toList, NumVal.num 11⟩,
   ⟨"1000".toList, NumVal.num 1000⟩]

/-- A one-row CSV file (header plus one valid data row). -/
def wFile : List RawRow := [headerRawRow, wGoodRow]

/-- The store contents after ingesting `wFile` into an empty store. -/
def wStore1 : List PRow := [stageRow 1 wGoodRow]

theorem c1_idempotency_witness :
    import_csv_file wStore1 wFile 1 = some (wStore1, 1) :=
  c1_idempotency [] wFile 1 wStore1 1 (by decide)

theorem c6_amended_witness :
    (1 : Nat) = [stageRow 1 wGoodRow].length :=
  (c6_amended wFile 1).1 [stageRow 1 wGoodRow] 1 0 [] [stageRow 1 wGoodRow] 1
    (by decide) (by decide)

/-- A data row whose volume text `100.5` passes the sanitizer
(`int(float("100.5")) = 100 >= 0`) but is rejected by the temp table's
`BIGINT` column. -/
def volFracRow : RawRow :=
  [⟨"2020-01-03".toList, NumVal.err⟩, ⟨"AAA".toList, NumVal.err⟩,
   ⟨"1".toList, NumVal.num 1⟩, ⟨"2".toList, NumVal.num 2⟩,
   ⟨"1".toList, NumVal.num 1⟩, ⟨"2".toList, NumVal.num 2⟩,
   ⟨"100.5".toList, NumVal.num (mkRat 201 2)⟩]

/-- C6 counterexample: a file with exactly one sanitizer-accepted staged
row for which the staging-and-merge step does not return that pre-merge
count 1 — or anything: its volume text `100.5` is rejected by the
`BIGINT` column, COPY raises an uncaught `DataError`, and the call never
returns. -/
theorem c6_counterexample :
    stageRows 1 [volFracRow] = some ([stageRow 1 volFracRow], 1, 0) ∧
    import_csv_file [] [headerRawRow, volFracRow] 1 = none := by
  exact ⟨by decide, by decide⟩

/-- A row whose date field is not a calendar date in any form, but whose
numeric fields are all valid. -/
def badDateRow : RawRow :=
  [⟨"not-a-date".toList, NumVal.err⟩, ⟨"AAA".toList, NumVal.err⟩,
   ⟨"1".toList, NumVal.num 1⟩, ⟨"2".toList, NumVal.num 2⟩,
   ⟨"1".toList, NumVal.num 1⟩, ⟨"2".toList, NumVal.num 2⟩,
   ⟨"100".toList, NumVal.num 100⟩]

/-- C4 counterexample: a row whose date field does not reduce to a
`YYYY-MM-DD` calendar date is nevertheless staged — the sanitizer
accepts it and it reaches the buffer with its malformed date carried
through verbatim, contradicting the claim that such rows are excluded
from the staged records.  The malformed date surfaces only afterwards,
in the storage layer: COPY's `DATE` parse raises an uncaught error for
the staged text, so the file fails instead of the row being skipped. -/
theorem c4_counterexample :
    stageRows 1 [badDateRow] = some ([stageRow 1 badDateRow], 1, 0) ∧
    (stageRow 1 badDateRow).trade_date = "not-a-date".toList ∧
    import_csv_file [] [headerRawRow, badDateRow] 1 = none := by
  refine ⟨by decide, by decide, by decide⟩

/-- C4 amended: the Row Sanitizer never examines the date field.  A row
is staged iff it has at least 7 fields and its five numeric fields pass
`is_valid_row`; the date text is carried into the staged record truncated
at its first space, whatever its form.  (A malformed date can only fail
later, in the storage layer's `DATE` parsing during COPY, outside the
sanitizer.) -/
theorem c4_amended (sid : Nat) (rows : List RawRow) (staged : List PRow)
    (ni ns : Nat) (h : stageRows sid rows = some (staged, ni, ns)) :
    staged =
      (rows.filter
        (fun r => !decide (r.length < 7) && (rowValid r == some true))).map
        (stageRow sid) := by
  induction rows generalizing staged ni ns with
  | nil =>
    simp only [stageRows, Option.some.injEq, Prod.mk.injEq] at h
    rw [← h.1]
    rfl
  | cons r rs ih =>
    simp only [stageRows] at h
    split at h
    · rename_i hlen
      rw [List.filter_cons_of_neg (by simp [hlen])]
      exact ih staged ni ns h
    · rename_i hlen
      split at h
      · cases h
      · rename_i hval
        split at h
        · cases h
        · rename_i ps1 ni1 ns1 heq
          simp only [Option.some.injEq, Prod.mk.injEq] at h
          obtain ⟨rfl, rfl, rfl⟩ := h
          rw [List.filter_cons_of_neg (by simp [hlen, hval])]
          exact ih ps1 ni1 ns1 heq
      · rename_i hval
        split at h
        · cases h
        · rename_i ps1 ni1 ns1 heq
          simp only [Option.some.injEq, Prod.mk.injEq] at h
          obtain ⟨rfl, rfl, rfl⟩ := h
          rw [List.filter_cons_of_pos (by simp [hlen, hval])]
          simp only [List.map_cons, List.cons.injEq]
          exact ⟨trivial, ih ps1 ni1 ns1 heq⟩

theorem c4_amended_witness :
    [stageRow 1 badDateRow] =
      ([badDateRow].filter
        (fun r => !decide (r.length < 7) && (rowValid r == some true))).map
        (stageRow 1) :=
  c4_amended 1 [badDateRow] [stageRow 1 badDateRow] 1 0 (by decide)

/-- The `symbols` table: its `(symbol_id, symbol)` rows and the next
identity the id sequence will assign. -/
structure SymTable where
  rows : List (Nat × String)
  next_id : Nat
  deriving DecidableEq

/-- Embeds `get_or_create_symbol` from `import_to_postgres.py`:
`INSERT INTO symbols (symbol) VALUES (%s) ON CONFLICT (symbol) DO NOTHING
RETURNING symbol_id` — when the ticker is new the insert happens and the
freshly assigned identity is returned; on conflict no row comes back
(`cursor.fetchone()` is `None`) and the follow-up
`SELECT symbol_id FROM symbols WHERE symbol = %s` returns the existing
identity. -/
def get_or_create_symbol (t : SymTable) (s : String) : SymTable × Nat :=
  match t.rows.find? (fun r => r.snd == s) with
  | some r => (t, r.fst)
  | none => (⟨t.rows ++ [(t.next_id, s)], t.next_id + 1⟩, t.next_id)

/-- C8: resolving an unknown ticker inserts it and returns the newly
assigned identity; resolving an existing ticker returns its identity and
leaves the table untouched, raising no error; consequently two successive
resolutions of the same ticker return the same identity. -/
theorem c8_symbol_resolution (t : SymTable) (s : String) :
    (t.rows.find? (fun r => r.snd == s) = none →
      get_or_create_symbol t s =
        (⟨t.rows ++ [(t.next_id, s)], t.next_id + 1⟩, t.next_id)) ∧
    (∀ r, t.rows.find? (fun r => r.snd == s) = some r →
      get_or_create_symbol t s = (t, r.fst)) ∧
    (get_or_create_symbol (get_or_create_symbol t s).fst s).snd =
      (get_or_create_symbol t s).snd := by
  refine ⟨?_, ?_, ?_⟩
  · intro hf
    unfold get_or_create_symbol
    rw [hf]
  · intro r hf
    unfold get_or_create_symbol
    rw [hf]
  · cases hf : t.rows.find? (fun r => r.snd == s) with
    | some r =>
      unfold get_or_create_symbol
      rw [hf]
      dsimp only
      rw [hf]
    | none =>
      unfold get_or_create_symbol
      rw [hf]
      dsimp only
      rw [List.find?_append, hf]
      simp [List.find?]

def wSyms : SymTable := ⟨[], 1⟩

theorem c8_symbol_resolution_witness :
    get_or_create_symbol wSyms "AAA" = (⟨[(1, "AAA")], 2⟩, 1) ∧
    (get_or_create_symbol (get_or_create_symbol wSyms "AAA").fst "AAA").snd =
      (get_or_create_symbol wSyms "AAA").snd :=
  ⟨(c8_symbol_resolution wSyms "AAA").1 (by decide),
   (c8_symbol_resolution wSyms "AAA").2.2⟩

/-- Aggregate state of `main`'s import loop: the symbols table, the
permanent store, and the summary counters. -/
structure DriverState where
  syms : SymTable
  store : List PRow
  total_rows : Nat
  files_imported : Nat
  files_skipped : Nat
  deriving DecidableEq

/-- Outcome of the driver loop: a completed run, or a run aborted by an
unrecoverable error on one file.  `aborted final failed unprocessed`
records the state at the abort (the failing file's transaction rolled
back), the failing file's symbol, and how many later files were never
processed. -/
inductive RunResult
  | completed (final : DriverState)
  | aborted (final : DriverState) (failed : String) (unprocessed : Nat)
  deriving DecidableEq

/-- The `for csv_path in csv_files` loop of `main` in
`import_to_postgres.py`.  Each file runs inside one transaction
(`with conn`): resolve the symbol, import the file, update the counters
(`rows > 0` counts the file as imported, otherwise as skipped).  An
unrecoverable error rolls that transaction back — discarding the file's
symbol insert and copied rows — and propagates to the
`except Exception` handler sitting outside the loop, which prints the
error and re-raises it, so the loop stops and the remaining files are
never processed. -/
def runFiles (s : DriverState) : List (String × List RawRow) → RunResult
  | [] => RunResult.completed s
  | (name, file) :: rest =>
    let resolved := get_or_create_symbol s.syms name
    match import_csv_file s.store file resolved.snd with
    | none => RunResult.aborted s name rest.length
    | some (store1, rows) =>
      if 0 < rows then
        runFiles ⟨resolved.fst, store1, s.total_rows + rows,
                  s.files_imported + 1, s.files_skipped⟩ rest
      else
        runFiles ⟨resolved.fst, store1, s.total_rows,
                  s.files_imported, s.files_skipped + 1⟩ rest

/-- A data row whose volume text parses to an infinite float:
`int(float("inf"))` raises `OverflowError`, which `is_valid_row`'s
`except (ValueError, TypeError)` does not catch, so ingesting the file
raises an unrecoverable error. -/
def infVolRow : RawRow :=
  [⟨"2020-01-02".toList, NumVal.err⟩, ⟨"BAD".toList, NumVal.err⟩,
   ⟨"1".toList, NumVal.num 1⟩, ⟨"2".toList, NumVal.num 2⟩,
   ⟨"1".toList, NumVal.num 1⟩, ⟨"2".toList, NumVal.num 2⟩,
   ⟨"inf".toList, NumVal.inf⟩]

/-- A CSV file whose ingestion raises an unrecoverable error. -/
def fatalFile : List RawRow := [headerRawRow, infVolRow]

/-- Fresh driver state: empty symbols table, empty store, zero counters. -/
def wInit : DriverState := ⟨wSyms, [], 0, 0, 0⟩

/-- C5 counterexample: with two discovered files, the first of which
raises an unrecoverable error during ingestion, the driver rolls that
file's transaction back but the run is aborted with the second file left
unprocessed (`unprocessed = 1`) — it does not continue with the remaining
files as the claim states. -/
theorem c5_counterexample :
    runFiles wInit [("BAD", fatalFile), ("GOOD", wFile)] =
      RunResult.aborted wInit "BAD" 1 := by
  decide

/-- C5 amended: when ingesting one discovered file raises an
unrecoverable error, the driver rolls back that file's transaction (the
state reverts to what it was before the file, undoing the symbol insert)
and records the failing file, but the re-raised exception aborts the run:
the remaining files are never processed. -/
theorem c5_amended (s : DriverState) (name : String) (file : List RawRow)
    (rest : List (String × List RawRow))
    (h : import_csv_file s.store file
      (get_or_create_symbol s.syms name).snd = none) :
    runFiles s ((name, file) :: rest) =
      RunResult.aborted s name rest.length := by
  simp [runFiles, h]

theorem c5_amended_witness :
    runFiles wInit [("BAD", fatalFile)] = RunResult.aborted wInit "BAD" 0 :=
  c5_amended wInit "BAD" fatalFile [] (by decide)

/-- The constant `EXPECTED_HEADER` from `validate_data.py`. -/
def EXPECTED_HEADER : List String :=
  ["Date", "Symbol", "Open", "High", "Low", "Close", "Volume"]

/-- One data row as the validation pass sees it: the outcome of
`datetime.strptime(row[0].split(" ")[0], "%Y-%m-%d")`, encoded
order-preservingly as a natural number, `none` when the parse raises
`ValueError` (or `IndexError` on an empty row). -/
structure VRow where
  dateVal : Option Nat
  deriving DecidableEq

/-- One artifact as the scan sees it: unreadable (opening or reading the
file raises, landing in `parse_errors`), or readable with a header line
and data rows. -/
inductive VArtifact
  | unreadable (symbol : String)
  | readable (symbol : String) (header : List String) (rows : List VRow)
  deriving DecidableEq

/-- The `stats` dictionary of `validate_csv_files`. -/
structure VStats where
  total_files : Nat
  total_rows : Nat
  valid_files : Nat
  empty_data_files : List String
  header_mismatch : List (String × List String)
  parse_errors : List String
  min_date : Option Nat
  max_date : Option Nat
  rows_per_file : List (String × Nat)
  date_range_per_symbol : List (String × Nat × Nat)
  deriving DecidableEq

def initStats : VStats := ⟨0, 0, 0, [], [], [], none, none, [], []⟩

/-- The body of the `for csv_file in csv_files` loop of
`validate_csv_files`: header check first (a mismatch records the artifact
and skips everything else), then row count and total rows, then the
header-only check, then the defensive per-row date parse feeding the
per-symbol and corpus-wide date ranges, and finally `valid_files`. -/
def validateStep (s : VStats) (a : VArtifact) : VStats :=
  match a with
  | VArtifact.unreadable sym =>
    { s with parse_errors := s.parse_errors ++ [sym] }
  | VArtifact.readable sym header rows =>
    if header = EXPECTED_HEADER then
      let n := rows.length
      let s1 := { s with rows_per_file := s.rows_per_file ++ [(sym, n)]
                       , total_rows := s.total_rows + n }
      if n = 0 then
        { s1 with empty_data_files := s1.empty_data_files ++ [sym] }
      else
        match rows.filterMap VRow.dateVal with
        | [] => { s1 with valid_files := s1.valid_files + 1 }
        | d :: ds =>
          let mn := ds.foldl min d
          let mx := ds.foldl max d
          { s1 with
            date_range_per_symbol :=
              s1.date_range_per_symbol ++ [(sym, mn, mx)]
            , min_date := some (match s1.min_date with
                                | none => mn
                                | some m => min m mn)
            , max_date := some (match s1.max_date with
                                | none => mx
                                | some m => max m mx)
            , valid_files := s1.valid_files + 1 }
    else
      { s with header_mismatch := s.header_mismatch ++ [(sym, header)] }

/-- Embeds `validate_csv_files` from `validate_data.py`: `total_files` is set
from the directory listing, then every artifact is scanned in turn. -/
def validate_csv_files (arts : List VArtifact) : VStats :=
  { arts.foldl validateStep initStats with total_files := arts.length }

/-- Embeds `downloaded_symbols = set(stats["rows_per_file"].keys())` from
`print_report`. -/
def downloadedSymbols (s : VStats) : Finset String :=
  (s.rows_per_file.map Prod.fst).toFinset

/-- Embeds `missing = expected_symbols - downloaded_symbols - failed_symbols`
from `print_report`. -/
def missingSymbols (s : VStats) (expected failed : Finset String) :
    Finset String :=
  (expected \ downloadedSymbols s) \ failed

/-- C2: the Validation Pass reports as missing exactly
`expected − ingested − failed`; when ingested, failed and missing are
pairwise-disjoint parts covering the expected universe, the reported set
is exactly the missing part and its size is
`|expected| − |ingested| − |failed|`. -/
theorem c2_reconciliation (stats : VStats) (expected failed missing : Finset String)
    (hcov : expected = downloadedSymbols stats ∪ failed ∪ missing)
    (h1 : Disjoint (downloadedSymbols stats) failed)
    (h2 : Disjoint (downloadedSymbols stats) missing)
    (h3 : Disjoint failed missing) :
    missingSymbols stats expected failed =
      (expected \ downloadedSymbols stats) \ failed ∧
    missingSymbols stats expected failed = missing ∧
    missing.card =
      expected.card - (downloadedSymbols stats).card - failed.card := by
  refine ⟨rfl, ?_, ?_⟩
  · unfold missingSymbols
    subst hcov
    ext x
    simp only [Finset.mem_sdiff, Finset.mem_union]
    constructor
    · rintro ⟨⟨hin, hnd⟩, hnf⟩
      rcases hin with (hd | hf) | hm
      · exact absurd hd hnd
      · exact absurd hf hnf
      · exact hm
    · intro hm
      refine ⟨⟨Or.inr hm, ?_⟩, ?_⟩
      · exact fun hd => (Finset.disjoint_left.mp h2) hd hm
      · exact fun hf => (Finset.disjoint_left.mp h3) hf hm
  · subst hcov
    rw [Finset.card_union_of_disjoint, Finset.card_union_of_disjoint h1]
    · omega
    · rw [Finset.disjoint_union_left]
      exact ⟨h2, h3⟩

theorem c2_reconciliation_witness :
    missingSymbols (validate_csv_files
        [VArtifact.readable "AAA" EXPECTED_HEADER [⟨some 20200102⟩]])
        {"AAA", "XXX"} ∅ =
      {"XXX"} :=
  (c2_reconciliation
    (validate_csv_files
      [VArtifact.readable "AAA" EXPECTED_HEADER [⟨some 20200102⟩]])
    {"AAA", "XXX"} ∅ {"XXX"}
    (by decide) (by decide) (by decide) (by decide)).2.1

/-- All statistics except `total_files` (set before the loop) and
`header_mismatch`. -/
def coreOf (s : VStats) :
    Nat × Nat × List String × List String × Option Nat × Option Nat ×
      List (String × Nat) × List (String × Nat × Nat) :=
  (s.total_rows, s.valid_files, s.empty_data_files, s.parse_errors,
   s.min_date, s.max_date, s.rows_per_file, s.date_range_per_symbol)

/-- The `header_mismatch` entries a single artifact contributes. -/
def hmContrib : VArtifact → List (String × List String)
  | VArtifact.readable sym header _ =>
    if header = EXPECTED_HEADER then [] else [(sym, header)]
  | VArtifact.unreadable _ => []

/-- The `header_mismatch` entries of a whole artifact list, in scan
order. -/
def hmAll : List VArtifact → List (String × List String)
  | [] => []
  | a :: l => hmContrib a ++ hmAll l

theorem validateStep_hm (s : VStats) (a : VArtifact) :
    (validateStep s a).header_mismatch = s.header_mismatch ++ hmContrib a := by
  cases a with
  | unreadable sym => simp [validateStep, hmContrib]
  | readable sym header rows =>
    by_cases hh : header = EXPECTED_HEADER
    · simp only [validateStep, hmContrib, if_pos hh]
      by_cases hn : rows.length = 0
      · simp [hn]
      · simp only [if_neg hn]
        cases rows.filterMap VRow.dateVal <;> simp
    · simp [validateStep, hmContrib, if_neg hh]

theorem validateStep_core (s1 s2 : VStats) (a : VArtifact)
    (h : coreOf s1 = coreOf s2) :
    coreOf (validateStep s1 a) = coreOf (validateStep s2 a) := by
  obtain ⟨tf1, tr1, vf1, ed1, hm1, pe1, mind1, maxd1, rpf1, drs1⟩ := s1
  obtain ⟨tf2, tr2, vf2, ed2, hm2, pe2, mind2, maxd2, rpf2, drs2⟩ := s2
  simp only [coreOf, Prod.mk.injEq] at h
  obtain ⟨e1, e2, e3, e4, e5, e6, e7, e8⟩ := h
  subst e1; subst e2; subst e3; subst e4
  subst e5; subst e6; subst e7; subst e8
  cases a with
  | unreadable sym => rfl
  | readable sym header rows =>
    by_cases hh : header = EXPECTED_HEADER
    · simp only [validateStep, if_pos hh]
      by_cases hn : rows.length = 0
      · simp [hn, coreOf]
      · simp only [if_neg hn]
        cases rows.filterMap VRow.dateVal <;> rfl
    · simp [validateStep, coreOf, if_neg hh]

theorem foldl_validateStep_core (l : List VArtifact) :
    ∀ s1 s2, coreOf s1 = coreOf s2 →
      coreOf (l.foldl validateStep s1) = coreOf (l.foldl validateStep s2) := by
  induction l with
  | nil => intro s1 s2 h; exact h
  | cons a l ih =>
    intro s1 s2 h
    simp only [List.foldl_cons]
    exact ih _ _ (validateStep_core s1 s2 a h)

theorem foldl_validateStep_hm (l : List VArtifact) :
    ∀ s, (l.foldl validateStep s).header_mismatch =
      s.header_mismatch ++ hmAll l := by
  induction l with
  | nil => intro s; simp [hmAll]
  | cons a l ih =>
    intro s
    simp only [List.foldl_cons, hmAll, ih, validateStep_hm, List.append_assoc]

theorem validateStep_mismatch_core (s : VStats) (sym : String)
    (header : List String) (rows : List VRow) (h : header ≠ EXPECTED_HEADER) :
    coreOf (validateStep s (VArtifact.readable sym header rows)) = coreOf s := by
  simp [validateStep, coreOf, if_neg h]

theorem hmAll_append (u v : List VArtifact) :
    hmAll (u ++ v) = hmAll u ++ hmAll v := by
  induction u with
  | nil => rfl
  | cons a u ih => simp [hmAll, ih]

/-- C7: an artifact whose header differs from the expected one is listed
under `header_mismatch`; every other statistic (row counts, date ranges,
valid/empty/unreadable files) is exactly what the pass computes without
that artifact, so it is excluded from statistics; and the pass still
scans everything (`total_files` counts it and the later artifacts
contribute as usual). -/
theorem c7_header_mismatch_isolation (l1 l2 : List VArtifact) (sym : String)
    (header : List String) (rows : List VRow)
    (h : header ≠ EXPECTED_HEADER) :
    let s := validate_csv_files (l1 ++ VArtifact.readable sym header rows :: l2)
    let s0 := validate_csv_files (l1 ++ l2)
    (sym, header) ∈ s.header_mismatch ∧
    s.total_rows = s0.total_rows ∧
    s.valid_files = s0.valid_files ∧
    s.rows_per_file = s0.rows_per_file ∧
    s.min_date = s0.min_date ∧
    s.max_date = s0.max_date ∧
    s.date_range_per_symbol = s0.date_range_per_symbol ∧
    s.empty_data_files = s0.empty_data_files ∧
    s.parse_errors = s0.parse_errors ∧
    s.total_files = l1.length + l2.length + 1 := by
  intro s s0
  have hcore : coreOf s = coreOf s0 := by
    show coreOf ((l1 ++ VArtifact.readable sym header rows :: l2).foldl
        validateStep initStats) =
      coreOf ((l1 ++ l2).foldl validateStep initStats)
    rw [List.foldl_append, List.foldl_append, List.foldl_cons]
    exact foldl_validateStep_core l2 _ _
      (validateStep_mismatch_core (l1.foldl validateStep initStats)
        sym header rows h)
  have hmem : (sym, header) ∈ s.header_mismatch := by
    show (sym, header) ∈ ((l1 ++ VArtifact.readable sym header rows :: l2).foldl
        validateStep initStats).header_mismatch
    rw [foldl_validateStep_hm]
    apply List.mem_append_right
    rw [hmAll_append]
    apply List.mem_append_right
    simp [hmAll, hmContrib, if_neg h]
  simp only [coreOf, Prod.mk.injEq] at hcore
  obtain ⟨e1, e2, e3, e4, e5, e6, e7, e8⟩ := hcore
  refine ⟨hmem, e1, e2, e7, e5, e6, e8, e3, e4, ?_⟩
  show (l1 ++ VArtifact.readable sym header rows :: l2).length =
    l1.length + l2.length + 1
  simp only [List.length_append, List.length_cons]
  omega

theorem c7_header_mismatch_isolation_witness :
    let bad := VArtifact.readable "BBB" ["Date", "Open", "High", "Low", "Close"] []
    let s := validate_csv_files
      [VArtifact.readable "AAA" EXPECTED_HEADER [⟨some 20200102⟩], bad]
    let s0 := validate_csv_files
      [VArtifact.readable "AAA" EXPECTED_HEADER [⟨some 20200102⟩]]
    ("BBB", ["Date", "Open", "High", "Low", "Close"]) ∈ s.header_mismatch ∧
    s.total_rows = s0.total_rows ∧ s.rows_per_file = s0.rows_per_file ∧
    s.total_files = 2 := by
  have h := c7_header_mismatch_isolation
    [VArtifact.readable "AAA" EXPECTED_HEADER [⟨some 20200102⟩]] []
    "BBB" ["Date", "Open", "High", "Low", "Close"] [] (by decide)
  exact ⟨h.1, h.2.1, h.2.2.2.1, h.2.2.2.2.2.2.2.2.2⟩

theorem validateStep_rpf_mono (s : VStats) (a : VArtifact) (x : String × Nat)
    (h : x ∈ s.rows_per_file) : x ∈ (validateStep s a).rows_per_file := by
  cases a with
  | unreadable sym => exact h
  | readable sym header rows =>
    by_cases hh : header = EXPECTED_HEADER
    · simp only [validateStep, if_pos hh]
      by_cases hn : rows.length = 0
      · simp only [if_pos hn]
        exact List.mem_append_left _ h
      · simp only [if_neg hn]
        cases rows.filterMap VRow.dateVal with
        | nil => exact List.mem_append_left _ h
        | cons d ds => exact List.mem_append_left _ h
    · simp only [validateStep, if_neg hh]
      exact h

theorem validateStep_empty_mono (s : VStats) (a : VArtifact) (x : String)
    (h : x ∈ s.empty_data_files) : x ∈ (validateStep s a).empty_data_files := by
  cases a with
  | unreadable sym => exact h
  | readable sym header rows =>
    by_cases hh : header = EXPECTED_HEADER
    · simp only [validateStep, if_pos hh]
      by_cases hn : rows.length = 0
      · simp only [if_pos hn]
        exact List.mem_append_left _ h
      · simp only [if_neg hn]
        cases rows.filterMap VRow.dateVal with
        | nil => exact h
        | cons d ds => exact h
    · simp only [validateStep, if_neg hh]
      exact h

theorem foldl_rpf_mono (l : List VArtifact) :
    ∀ s x, x ∈ s.rows_per_file →
      x ∈ (l.foldl validateStep s).rows_per_file := by
  induction l with
  | nil => intro s x h; exact h
  | cons a l ih =>
    intro s x h
    exact ih _ x (validateStep_rpf_mono s a x h)

theorem foldl_empty_mono (l : List VArtifact) :
    ∀ s x, x ∈ s.empty_data_files →
      x ∈ (l.foldl validateStep s).empty_data_files := by
  induction l with
  | nil => intro s x h; exact h
  | cons a l ih =>
    intro s x h
    exact ih _ x (validateStep_empty_mono s a x h)

theorem validateStep_empty_artifact (s : VStats) (sym : String) :
    (validateStep s (VArtifact.readable sym EXPECTED_HEADER [])).rows_per_file =
      s.rows_per_file ++ [(sym, 0)] ∧
    (validateStep s (VArtifact.readable sym EXPECTED_HEADER [])).empty_data_files =
      s.empty_data_files ++ [sym] := by
  constructor <;> simp [validateStep]

/-- C10: a readable artifact with the correct header and zero data rows
is recorded with a row count of 0 in `rows_per_file`, flagged under
`empty_data_files`, counted as a downloaded symbol during
reconciliation, and can therefore never appear in the missing set —
even though none of its rows were ingested. -/
theorem c10_empty_file_not_missing (l1 l2 : List VArtifact) (sym : String) :
    let s := validate_csv_files
      (l1 ++ VArtifact.readable sym EXPECTED_HEADER [] :: l2)
    (sym, 0) ∈ s.rows_per_file ∧
    sym ∈ s.empty_data_files ∧
    sym ∈ downloadedSymbols s ∧
    ∀ expected failed, sym ∉ missingSymbols s expected failed := by
  intro s
  have hfold : s.rows_per_file =
      ((l1 ++ VArtifact.readable sym EXPECTED_HEADER [] :: l2).foldl
        validateStep initStats).rows_per_file := rfl
  have hrpf : (sym, 0) ∈ s.rows_per_file := by
    rw [hfold, List.foldl_append, List.foldl_cons]
    apply foldl_rpf_mono
    rw [(validateStep_empty_artifact (l1.foldl validateStep initStats) sym).1]
    exact List.mem_append_right _ (List.mem_singleton.mpr rfl)
  have hed : sym ∈ s.empty_data_files := by
    show sym ∈ ((l1 ++ VArtifact.readable sym EXPECTED_HEADER [] :: l2).foldl
      validateStep initStats).empty_data_files
    rw [List.foldl_append, List.foldl_cons]
    apply foldl_empty_mono
    rw [(validateStep_empty_artifact (l1.foldl validateStep initStats) sym).2]
    exact List.mem_append_right _ (List.mem_singleton.mpr rfl)
  have hdl : sym ∈ downloadedSymbols s := by
    unfold downloadedSymbols
    rw [List.mem_toFinset]
    exact List.mem_map.mpr ⟨(sym, 0), hrpf, rfl⟩
  refine ⟨hrpf, hed, hdl, ?_⟩
  intro expected failed hmem
  unfold missingSymbols at hmem
  rw [Finset.mem_sdiff, Finset.mem_sdiff] at hmem
  exact hmem.1.2 hdl

end MarketInsight
